import Mathlib

/-!
Shallow embedding of the core of the wikiart scraper (`src/common.py`):
`clean_name`, `intercept_route`, `safe_goto` and `load_all_artworks`.

Browser-driver effects (page navigation, element queries, clicks) are
modelled as oracles returning `Except String _` values: `Except.error e`
stands for a Python exception raised by the awaited driver call, and
`Except.ok` for its normal return.  Character classes `\s` and `\d` of the
CPython regex in `clean_name` are modelled by their ASCII parts.
-/

namespace WikiartScraper

/-! ### `clean_name` (src/common.py lines 6-8)

`re.sub(r"\s*\d+\s*$", "", raw_name)`: the pattern is anchored at the end
of the string, so there is at most one (leftmost) match, consisting of the
trailing whitespace run, the trailing digit run before it (required to be
non-empty), and the whitespace run immediately before those digits. -/

/-- ASCII model of the regex class `\s`. -/
def isPySpace (c : Char) : Bool :=
  c == ' ' || c == '\t' || c == '\n' || c == '\x0d' || c == '\x0b' || c == '\x0c'

/-- `clean_name raw_name = re.sub(r"\s*\d+\s*$", "", raw_name)`:
working from the right, drop trailing whitespace; if a digit run is now at
the end, drop it and the whitespace run before it, otherwise the pattern
does not match and the string is unchanged. -/
def clean_name (raw_name : String) : String :=
  let r := raw_name.data.reverse
  let r1 := r.dropWhile isPySpace
  match r1 with
  | [] => raw_name
  | c :: _ =>
    if c.isDigit then
      (((r1.dropWhile Char.isDigit).dropWhile isPySpace).reverse).asString
    else
      raw_name

/-- Does `s` end in (optional whitespace, at least one digit, optional
whitespace), i.e. does the regex `\s*\d+\s*$` match somewhere in `s`? -/
def endsInDigitGroup (s : String) : Bool :=
  match s.data.reverse.dropWhile isPySpace with
  | [] => false
  | c :: _ => c.isDigit

/-- Does the character list have the shape `\s* \d+ \s*`
(a digit run, possibly surrounded by whitespace)? -/
def isWsDigitsWs (l : List Char) : Bool :=
  let l1 := l.dropWhile isPySpace
  match l1 with
  | [] => false
  | c :: _ => c.isDigit && (l1.dropWhile Char.isDigit).all isPySpace

/-! ### `intercept_route` (src/common.py lines 11-25)

The route's request carries a resource type and a URL.  Reading either
attribute is an awaited driver interaction that could raise, which the
Python code does not guard; the fields are therefore `Except`-valued.
The result records the list of resolutions issued (`route.abort()` /
`route.continue_()` calls) and the exception escaping the handler, if
any. -/

/-- Resolution decision for one route. -/
inductive Decision where
  | abort
  | cont
  deriving DecidableEq, Repr

/-- One intercepted request: its resource classification and target URL,
each possibly raising when read. -/
structure RouteRequest where
  resource_type : Except String String
  url : Except String String

/-- `blocked_types = {"image", "stylesheet", "font", "media"}`. -/
def blocked_types : List String := ["image", "stylesheet", "font", "media"]

/-- `blocked_domains = ["google-analytics.com", "doubleclick.net", "facebook.com"]`. -/
def blocked_domains : List String :=
  ["google-analytics.com", "doubleclick.net", "facebook.com"]

/-- Is `pre` a leading segment of `l`? (model of Python string matching). -/
def leadsList : List Char → List Char → Bool
  | _, [] => true
  | [], _ :: _ => false
  | a :: as, b :: bs => a == b && leadsList as bs

/-- Does `needle` occur contiguously inside `hay`?
Model of Python's `needle in hay` on strings. -/
def containsList : List Char → List Char → Bool
  | hay, needle =>
    leadsList hay needle ||
      match hay with
      | [] => false
      | _ :: t => containsList t needle

/-- `domain in url` (Python substring test). -/
def strContains (hay needle : String) : Bool :=
  containsList hay.data needle.data

/-- `intercept_route(route)`: abort when the resource type is blocked or
the URL contains a blocked domain, otherwise continue.  Evaluation order
follows the Python source: `req.resource_type` is read first; `req.url` is
read only if the resource-type test fails (short-circuit `or`).  Returns
the resolutions issued and the escaping exception, if any. -/
def intercept_route (route : RouteRequest) : List Decision × Option String :=
  match route.resource_type with
  | .error e => ([], some e)
  | .ok rt =>
    if blocked_types.contains rt then
      ([Decision.abort], none)
    else
      match route.url with
      | .error e => ([], some e)
      | .ok u =>
        if blocked_domains.any (fun d => strContains u d) then
          ([Decision.abort], none)
        else
          ([Decision.cont], none)

/-! ### `safe_goto` (src/common.py lines 28-46)

For each attempt `1..retries`: install the request filter, try
`page.goto(url, wait_until="domcontentloaded", timeout=5_000 * attempt)`;
on exception install the filter again and try
`page.goto(url, wait_until="networkidle", timeout=5_000 * attempt)`;
on a second exception sleep `delay` (when attempts remain) and move to the
next attempt.  After the loop: `raise RuntimeError(f"Failed to load {url}
after {retries} attempts")`.  The `goto` calls are modelled by an oracle
mapping (attempt index, wait condition, timeout) to success or exception;
`page.route` installations are counted in the trace. -/

/-- The `wait_until` settle condition of a `page.goto` call. -/
inductive WaitCond where
  | domcontentloaded
  | networkidle
  deriving DecidableEq, Repr

/-- Timeout of the `domcontentloaded` goto on attempt `i`:
`5_000 * attempt` (src/common.py line 33). -/
def timeout_domcontentloaded (attempt : Nat) : Nat := 5000 * attempt

/-- Timeout of the `networkidle` goto on attempt `i`:
`5_000 * attempt` (src/common.py line 40). -/
def timeout_networkidle (attempt : Nat) : Nat := 5000 * attempt

/-- Oracle for the browser driver inside `safe_goto`: the outcome of
`page.goto` for a given attempt index, settle condition and timeout. -/
structure GotoOracle where
  goto : Nat → WaitCond → Nat → Except String Unit

/-- Result of a `safe_goto` call: normal return after a successful settle,
or the final `RuntimeError` carrying the URL and the retry count. -/
inductive NavResult where
  | success (attempt : Nat) (cond : WaitCond)
  | exhausted (url : String) (retries : Nat)
  deriving DecidableEq, Repr

/-- Observable trace of one `safe_goto` call: attempts begun, `page.route`
installations performed, and the outcome. -/
structure NavTrace where
  attemptsMade : Nat
  installs : Nat
  result : NavResult
  deriving DecidableEq, Repr

/-- The retry loop of `safe_goto`, recursing on the remaining attempts;
`attempt` is the Python loop variable (first call: 1), `inst` the number of
`page.route` installations so far. -/
def safeGotoLoop (o : GotoOracle) (url : String) (retries : Nat) :
    Nat → Nat → Nat → NavTrace
  | _, 0, inst => ⟨retries, inst, .exhausted url retries⟩
  | attempt, remaining + 1, inst =>
    match o.goto attempt .domcontentloaded (timeout_domcontentloaded attempt) with
    | .ok _ => ⟨attempt, inst + 1, .success attempt .domcontentloaded⟩
    | .error _ =>
      match o.goto attempt .networkidle (timeout_networkidle attempt) with
      | .ok _ => ⟨attempt, inst + 2, .success attempt .networkidle⟩
      | .error _ => safeGotoLoop o url retries (attempt + 1) remaining (inst + 2)

/-- `safe_goto(page, url, retries=3, delay=2)`; the page handle is the
oracle, `delay` only controls sleeping and has no observable effect here. -/
def safe_goto (o : GotoOracle) (url : String) (retries : Nat := 3) : NavTrace :=
  safeGotoLoop o url retries 1 retries 0

/-! ### `load_all_artworks` (src/common.py lines 96-138)

`for i in range(30)` drives the `a.masonry-load-more-button` control; the
whole loop body sits in a `try/except Exception` that logs and returns.
Each driver interaction at iteration `i` is an oracle field; `Except.error`
models a raised exception.  The trace records the Python loop index at
exit, the number of `button.click` attempts, the number of 2-second sleeps
taken after failed clicks, and how the loop ended. -/

/-- Behaviour of the page during `load_all_artworks`, per loop index `i`:
outcomes of the selector queries, visibility checks, scrolls and clicks. -/
structure PageBehavior where
  query : Nat → Except String Bool
  isVisibleFirst : Nat → Except String Bool
  scrollDown : Nat → Except String Unit
  isVisibleAfterScroll : Nat → Except String Bool
  scrollIntoView : Nat → Except String Unit
  click : Nat → Except String Unit
  scrollAfterClick : Nat → Except String Unit
  queryAfterClick : Nat → Except String Bool

/-- How the expansion loop ended.  `raised` marks an exception escaping the
`for` loop (before the enclosing `except Exception` handler); `caughtError`
is that same exception once the handler has absorbed it. -/
inductive ExpandOutcome where
  | noButton
  | stillNotVisible
  | buttonGone
  | capReached
  | raised (e : String)
  | caughtError (e : String)
  deriving DecidableEq, Repr

/-- Observable trace of the expansion loop: Python loop index at exit,
click attempts made, 2-second sleeps after failed clicks, and the ending. -/
structure ExpandTrace where
  index : Nat
  clicks : Nat
  failSleeps : Nat
  outcome : ExpandOutcome
  deriving DecidableEq, Repr

/-- Lines 105-110 of `load_all_artworks`: check visibility; when not
visible, scroll the page down and check again. -/
def visibleAt (b : PageBehavior) (i : Nat) : Except String Bool :=
  match b.isVisibleFirst i with
  | .error e => .error e
  | .ok true => .ok true
  | .ok false =>
    match b.scrollDown i with
    | .error e => .error e
    | .ok _ => b.isVisibleAfterScroll i

/-- The `for i in range(30)` body of `load_all_artworks`, recursing on the
remaining iterations (`fuel`); `i`, `clicks`, `fs` accumulate the trace. -/
def expandLoop (b : PageBehavior) : Nat → Nat → Nat → Nat → ExpandTrace
  | 0, i, clicks, fs => ⟨i, clicks, fs, .capReached⟩
  | fuel + 1, i, clicks, fs =>
    match b.query i with
    | .error e => ⟨i, clicks, fs, .raised e⟩
    | .ok false => ⟨i, clicks, fs, .noButton⟩
    | .ok true =>
      match visibleAt b i with
      | .error e => ⟨i, clicks, fs, .raised e⟩
      | .ok false => ⟨i, clicks, fs, .stillNotVisible⟩
      | .ok true =>
        match b.scrollIntoView i with
        | .error e => ⟨i, clicks, fs, .raised e⟩
        | .ok _ =>
          match b.click i with
          | .error _ => expandLoop b fuel (i + 1) (clicks + 1) (fs + 1)
          | .ok _ =>
            match b.scrollAfterClick i with
            | .error e => ⟨i, clicks + 1, fs, .raised e⟩
            | .ok _ =>
              match b.queryAfterClick i with
              | .error e => ⟨i, clicks + 1, fs, .raised e⟩
              | .ok false => ⟨i, clicks + 1, fs, .buttonGone⟩
              | .ok true => expandLoop b fuel (i + 1) (clicks + 1) fs

/-- `load_all_artworks(page)`: run the loop with cap 30; the surrounding
`try/except Exception` turns any escaping exception into a logged, normal
return. -/
def load_all_artworks (b : PageBehavior) : ExpandTrace :=
  match expandLoop b 30 0 0 0 with
  | ⟨i, clicks, fs, .raised e⟩ => ⟨i, clicks, fs, .caughtError e⟩
  | t => t

/-! ### Concrete inputs used by the witness theorems -/

/-- An oracle on which every `goto` raises. -/
def oAllFail : GotoOracle := ⟨fun _ _ _ => .error "net::ERR_TIMED_OUT"⟩

/-- An oracle failing every `goto` before attempt 2 and succeeding from
attempt 2 on. -/
def oDomAt2 : GotoOracle :=
  ⟨fun i _ _ => if 2 ≤ i then .ok () else .error "net::ERR_TIMED_OUT"⟩

/-- An oracle on which `domcontentloaded` always raises and `networkidle`
always succeeds. -/
def oNetOnly : GotoOracle :=
  ⟨fun _ c _ =>
    match c with
    | .domcontentloaded => .error "net::ERR_TIMED_OUT"
    | .networkidle => .ok ()⟩

/-- A page whose load-more button always exists and is visible, but on
which every click raises. -/
def clickFailPage : PageBehavior where
  query := fun _ => .ok true
  isVisibleFirst := fun _ => .ok true
  scrollDown := fun _ => .ok ()
  isVisibleAfterScroll := fun _ => .ok true
  scrollIntoView := fun _ => .ok ()
  click := fun _ => .error "Timeout 10000ms exceeded"
  scrollAfterClick := fun _ => .ok ()
  queryAfterClick := fun _ => .ok true

end WikiartScraper

namespace WikiartScraper

/-! ### `clean_name` theorems (C10) -/

/-- A whitespace character (in the model) is not a digit. -/
theorem not_digit_of_space {c : Char} (h : isPySpace c = true) :
    c.isDigit = false := by
  simp only [isPySpace, Bool.or_eq_true, beq_iff_eq] at h
  rcases h with ((((rfl | rfl) | rfl) | rfl) | rfl) | rfl <;> decide

/-- A digit is not a whitespace character (in the model). -/
theorem not_space_of_digit {c : Char} (h : c.isDigit = true) :
    isPySpace c = false := by
  cases hs : isPySpace c
  · rfl
  · rw [not_digit_of_space hs] at h
    exact Bool.noConfusion h

/-- `dropWhile` discards a leading segment all of whose elements satisfy
the predicate. -/
theorem dropWhile_append_of_all {p : Char → Bool} :
    ∀ (l1 l2 : List Char), (∀ c ∈ l1, p c = true) →
      (l1 ++ l2).dropWhile p = l2.dropWhile p := by
  intro l1
  induction l1 with
  | nil => intro l2 _; simp
  | cons a t ih =>
    intro l2 h
    have ha : p a = true := h a (List.mem_cons_self a t)
    simp only [List.cons_append, List.dropWhile_cons, ha, if_true]
    exact ih l2 (fun c hc => h c (List.mem_cons_of_mem a hc))

/-- `dropWhile` is the identity when the head fails the predicate. -/
theorem dropWhile_cons_neg {p : Char → Bool} (a : Char) (l : List Char)
    (h : p a = false) : (a :: l).dropWhile p = a :: l := by
  simp [List.dropWhile_cons, h]

/-- Dropping digits from an all-whitespace list changes nothing. -/
theorem dropWhile_digit_of_all_space (w : List Char)
    (hw : ∀ c ∈ w, isPySpace c = true) : w.dropWhile Char.isDigit = w := by
  rcases w with _ | ⟨a, t⟩
  · simp
  · exact dropWhile_cons_neg a t
      (not_digit_of_space (hw a (List.mem_cons_self a t)))

/-- A list of the form whitespace ++ (non-empty digits ++ whitespace) has
the `\s* \d+ \s*` shape. -/
theorem isWsDigitsWs_parts (w2 d w1 : List Char)
    (hw2 : ∀ c ∈ w2, isPySpace c = true)
    (hd : ∀ c ∈ d, c.isDigit = true)
    (hw1 : ∀ c ∈ w1, isPySpace c = true)
    (hne : d ≠ []) :
    isWsDigitsWs (w2 ++ (d ++ w1)) = true := by
  rcases d with _ | ⟨dc, dt⟩
  · exact absurd rfl hne
  have hdc : dc.isDigit = true := hd dc (List.mem_cons_self dc dt)
  have h1 : (w2 ++ (dc :: dt ++ w1)).dropWhile isPySpace = dc :: (dt ++ w1) := by
    rw [dropWhile_append_of_all w2 (dc :: dt ++ w1) hw2]
    exact dropWhile_cons_neg dc (dt ++ w1) (not_space_of_digit hdc)
  have h2 : (dc :: (dt ++ w1)).dropWhile Char.isDigit = w1 := by
    have hc : dc :: (dt ++ w1) = (dc :: dt) ++ w1 := by simp
    rw [hc, dropWhile_append_of_all (dc :: dt) w1 hd,
      dropWhile_digit_of_all_space w1 hw1]
  simp only [isWsDigitsWs]
  rw [h1]
  simp only [hdc, h2, Bool.true_and, List.all_eq_true]
  exact hw1

/-- **C10.** `clean_name s` is a prefix of `s`: the removed suffix is
either empty or one trailing digit run together with its surrounding
whitespace (`\s* \d+ \s*`); and when `s` does not end in (optional
whitespace, digits, optional whitespace), `clean_name` leaves it
unchanged. -/
theorem clean_name_trailing_digits (s : String) :
    (∃ rem : List Char, s.data = (clean_name s).data ++ rem ∧
      (rem = [] ∨ isWsDigitsWs rem = true)) ∧
    (endsInDigitGroup s = false → clean_name s = s) := by
  rcases hE : s.data.reverse.dropWhile isPySpace with _ | ⟨c, tl⟩
  · have hcn : clean_name s = s := by
      simp only [clean_name]
      rw [hE]
    exact ⟨⟨[], by simp [hcn], Or.inl rfl⟩, fun _ => hcn⟩
  · by_cases hd : c.isDigit
    · have hcn : (clean_name s).data =
          (((c :: tl).dropWhile Char.isDigit).dropWhile isPySpace).reverse := by
        simp only [clean_name]
        rw [hE]
        simp only [hd, if_true]
        rfl
      have decomp : ∃ w1 d r2 w2 r3 : List Char,
          s.data.reverse = w1 ++ (c :: tl) ∧ c :: tl = d ++ r2 ∧
          r2 = w2 ++ r3 ∧
          (∀ x ∈ w1, isPySpace x = true) ∧ (∀ x ∈ d, x.isDigit = true) ∧
          (∀ x ∈ w2, isPySpace x = true) ∧ d ≠ [] ∧
          r3 = ((c :: tl).dropWhile Char.isDigit).dropWhile isPySpace := by
        refine ⟨s.data.reverse.takeWhile isPySpace,
          (c :: tl).takeWhile Char.isDigit, (c :: tl).dropWhile Char.isDigit,
          ((c :: tl).dropWhile Char.isDigit).takeWhile isPySpace,
          ((c :: tl).dropWhile Char.isDigit).dropWhile isPySpace,
          ?_, (List.takeWhile_append_dropWhile ..).symm,
          (List.takeWhile_append_dropWhile ..).symm,
          fun x hx => List.mem_takeWhile_imp hx,
          fun x hx => List.mem_takeWhile_imp hx,
          fun x hx => List.mem_takeWhile_imp hx, ?_, rfl⟩
        · conv_lhs =>
            rw [← List.takeWhile_append_dropWhile (p := isPySpace)
              (l := s.data.reverse)]
          rw [hE]
        · simp [List.takeWhile_cons, hd]
      obtain ⟨w1, d, r2, w2, r3, h0, h1, h2, a1, a2, a3, hne, hr3⟩ := decomp
      constructor
      · refine ⟨w2.reverse ++ (d.reverse ++ w1.reverse), ?_, Or.inr ?_⟩
        · rw [hcn, ← hr3]
          calc s.data = s.data.reverse.reverse := (List.reverse_reverse _).symm
            _ = (w1 ++ (c :: tl)).reverse := by rw [h0]
            _ = (w1 ++ (d ++ r2)).reverse := by rw [h1]
            _ = (w1 ++ (d ++ (w2 ++ r3))).reverse := by rw [h2]
            _ = r3.reverse ++ (w2.reverse ++ (d.reverse ++ w1.reverse)) := by
                simp [List.reverse_append]
        · exact isWsDigitsWs_parts w2.reverse d.reverse w1.reverse
            (fun x hx => a3 x (List.mem_reverse.mp hx))
            (fun x hx => a2 x (List.mem_reverse.mp hx))
            (fun x hx => a1 x (List.mem_reverse.mp hx))
            (fun h => hne (by simpa using h))
      · intro hfalse
        exfalso
        simp only [endsInDigitGroup, hE] at hfalse
        rw [hd] at hfalse
        exact Bool.noConfusion hfalse
    · have hcn : clean_name s = s := by
        simp only [clean_name]
        rw [hE]
        simp [hd]
      exact ⟨⟨[], by simp [hcn], Or.inl rfl⟩, fun _ => hcn⟩

/-- Witness for C10 at a name with no trailing digit group. -/
theorem clean_name_trailing_digits_witness :
    endsInDigitGroup "Claude Monet" = false ∧
    clean_name "Claude Monet" = "Claude Monet" :=
  ⟨rfl, (clean_name_trailing_digits "Claude Monet").2 rfl⟩

/-! ### Request-filter theorems (C2, C5) -/

/-- **C2.** For every request whose attributes read successfully, the
filter aborts iff its resource classification is in the blocked set or its
URL contains one of the configured blocked substrings, and continues in
every other case (each with exactly one resolution and no escaping
error). -/
theorem intercept_route_decision (rt u : String) :
    (intercept_route ⟨Except.ok rt, Except.ok u⟩ = ([Decision.abort], none) ↔
      rt ∈ blocked_types ∨ ∃ d ∈ blocked_domains, strContains u d = true) ∧
    (intercept_route ⟨Except.ok rt, Except.ok u⟩ = ([Decision.cont], none) ↔
      ¬(rt ∈ blocked_types ∨ ∃ d ∈ blocked_domains, strContains u d = true)) := by
  by_cases h1 : blocked_types.contains rt
  · have hm : rt ∈ blocked_types := by simpa using h1
    simp [intercept_route, h1, hm]
  · have hm : rt ∉ blocked_types := by simpa using h1
    by_cases h2 : blocked_domains.any (fun d => strContains u d)
    · have hx : ∃ d ∈ blocked_domains, strContains u d = true := by
        simpa [List.any_eq_true] using h2
      simp [intercept_route, h1, h2, hm, hx]
    · have hx : ¬∃ d ∈ blocked_domains, strContains u d = true := by
        simpa [List.any_eq_true] using h2
      simp [intercept_route, h1, h2, hm, hx]

/-- **C5 counterexample.** A request whose resource-type read raises is
left unresolved: `intercept_route` issues zero resolutions (not a safe
`continue`) before the error escapes. -/
theorem intercept_route_unresolved_on_error :
    intercept_route ⟨Except.error "boom", Except.ok "https://x"⟩ =
      ([], some "boom") := rfl

/-- **C5 amended.** A request is resolved exactly once whenever its
attribute reads succeed (and also whenever the resource type is blocked);
but when classification raises, the error escapes with the request left
unresolved — there is no safe-default `continue`. -/
theorem intercept_route_resolution (route : RouteRequest) :
    (∀ rt u, route.resource_type = .ok rt → route.url = .ok u →
      (intercept_route route).1.length = 1 ∧ (intercept_route route).2 = none) ∧
    (∀ e, (intercept_route route).2 = some e → (intercept_route route).1 = []) := by
  rcases route with ⟨rt0, u0⟩
  constructor
  · rintro rt u rfl rfl
    simp only [intercept_route]
    split <;> simp <;> split <;> simp
  · intro e
    rcases rt0 with e0 | rt
    · simp [intercept_route]
    · rcases u0 with e1 | u
      · simp only [intercept_route]
        split <;> simp
      · simp only [intercept_route]
        split
        · simp
        · split <;> simp

/-- Witness for C5 amended: an allowed script request is resolved exactly
once; a request whose resource-type read raises is left unresolved. -/
theorem intercept_route_resolution_witness :
    ((intercept_route ⟨Except.ok "script", Except.ok "https://a.com"⟩).1.length = 1 ∧
      (intercept_route ⟨Except.ok "script", Except.ok "https://a.com"⟩).2 = none) ∧
    (intercept_route ⟨Except.error "boom", Except.ok "https://a.com"⟩).1 = [] :=
  ⟨(intercept_route_resolution ⟨Except.ok "script", Except.ok "https://a.com"⟩).1
      "script" "https://a.com" rfl rfl,
    (intercept_route_resolution ⟨Except.error "boom", Except.ok "https://a.com"⟩).2
      "boom" rfl⟩

/-! ### `safe_goto` retry theorems (C1) -/

/-- When each of the `k` attempts starting at `attempt = a` fails under
both settle conditions, the retry loop skips over them, accumulating two
filter installations per attempt. -/
theorem safeGotoLoop_skip (o : GotoOracle) (url : String) (retries : Nat) :
    ∀ (k a r inst : Nat),
      (∀ j c t, a ≤ j → j < a + k → ∃ e, o.goto j c t = Except.error e) →
      safeGotoLoop o url retries a (r + k) inst =
        safeGotoLoop o url retries (a + k) r (inst + 2 * k) := by
  intro k
  induction k with
  | zero => intro a r inst _; simp
  | succ n ih =>
    intro a r inst hj
    obtain ⟨e1, h1⟩ :=
      hj a .domcontentloaded (timeout_domcontentloaded a) (le_refl a) (by omega)
    obtain ⟨e2, h2⟩ :=
      hj a .networkidle (timeout_networkidle a) (le_refl a) (by omega)
    have hr : r + (n + 1) = (r + n) + 1 := by omega
    rw [hr]
    simp only [safeGotoLoop, h1, h2]
    rw [ih (a + 1) r (inst + 2) (fun j c t hj1 hj2 => hj j c t (by omega) (by omega))]
    congr 1 <;> omega

/-- **C1.** (1) When every attempt of both settle conditions raises,
`safe_goto` performs exactly `retries` attempts and ends with the
exhaustion error carrying the URL and the retry count. (2)/(3) When all
attempts before `i` fail under both conditions, a success of
`domcontentloaded` (resp. a `domcontentloaded` failure followed by a
`networkidle` success) on attempt `i ≤ retries` returns success
immediately, with exactly `i` attempts made. -/
theorem safe_goto_retry_contract :
    (∀ (o : GotoOracle) (url : String) (retries : Nat),
      (∀ i c t, ∃ e, o.goto i c t = Except.error e) →
      safe_goto o url retries = ⟨retries, 2 * retries, .exhausted url retries⟩) ∧
    (∀ (o : GotoOracle) (url : String) (retries i : Nat),
      1 ≤ i → i ≤ retries →
      (∀ j c t, 1 ≤ j → j < i → ∃ e, o.goto j c t = Except.error e) →
      (o.goto i .domcontentloaded (timeout_domcontentloaded i) = .ok () →
        safe_goto o url retries =
          ⟨i, 2 * (i - 1) + 1, .success i .domcontentloaded⟩) ∧
      ((∃ e, o.goto i .domcontentloaded (timeout_domcontentloaded i) =
          .error e) →
        o.goto i .networkidle (timeout_networkidle i) = .ok () →
        safe_goto o url retries =
          ⟨i, 2 * (i - 1) + 2, .success i .networkidle⟩)) := by
  constructor
  · intro o url retries hfail
    have h := safeGotoLoop_skip o url retries retries 1 0 0
      (fun j c t _ _ => hfail j c t)
    simp only [Nat.zero_add] at h
    unfold safe_goto
    rw [h]
    simp [safeGotoLoop]
  · intro o url retries i h1 h2 hfail
    have hkey : safeGotoLoop o url retries 1 retries 0 =
        safeGotoLoop o url retries i (retries - (i - 1)) (2 * (i - 1)) := by
      have h := safeGotoLoop_skip o url retries (i - 1) 1 (retries - (i - 1)) 0
        (fun j c t hj1 hj2 => hfail j c t hj1 (by omega))
      have hr : retries - (i - 1) + (i - 1) = retries := by omega
      rw [hr] at h
      have ha : 1 + (i - 1) = i := by omega
      rw [ha] at h
      simpa using h
    obtain ⟨m, hm⟩ : ∃ m, retries - (i - 1) = m + 1 := ⟨retries - i, by omega⟩
    constructor
    · intro hokA
      unfold safe_goto
      rw [hkey, hm]
      simp only [safeGotoLoop, hokA]
    · rintro ⟨e1, herrA⟩ hokB
      unfold safe_goto
      rw [hkey, hm]
      simp only [safeGotoLoop, herrA, hokB]

/-- Witness for C1: exhaustion on an always-failing oracle with the
default 3 retries; immediate success at attempt 2 via `domcontentloaded`;
immediate success at attempt 1 via `networkidle`. -/
theorem safe_goto_retry_contract_witness :
    safe_goto oAllFail "https://www.wikiart.org" 3 =
      ⟨3, 6, .exhausted "https://www.wikiart.org" 3⟩ ∧
    safe_goto oDomAt2 "u" 3 = ⟨2, 3, .success 2 .domcontentloaded⟩ ∧
    safe_goto oNetOnly "u" 3 = ⟨1, 2, .success 1 .networkidle⟩ :=
  ⟨safe_goto_retry_contract.1 oAllFail "https://www.wikiart.org" 3
      (fun _ _ _ => ⟨"net::ERR_TIMED_OUT", rfl⟩),
    (safe_goto_retry_contract.2 oDomAt2 "u" 3 2 (by decide) (by decide)
        (fun j c t hj1 hj2 => ⟨"net::ERR_TIMED_OUT", by
          simp only [oDomAt2]
          rw [if_neg (by omega)]⟩)).1
      (by simp [oDomAt2]),
    (safe_goto_retry_contract.2 oNetOnly "u" 3 1 (by decide) (by decide)
        (fun j c t hj1 hj2 => absurd (hj1.trans_lt hj2) (lt_irrefl 1))).2
      ⟨"net::ERR_TIMED_OUT", rfl⟩ rfl⟩

/-! ### Timeout theorems (C4, C7) -/

/-- **C4 counterexample.** The `networkidle` timeout is computed from the
same base as the `domcontentloaded` timeout — `5_000 * attempt` in both
`page.goto` calls — so the claimed `base_B ≠ base_A` is false: at attempts
1 and 3 the two timeouts coincide (5000 and 15000). -/
theorem timeout_bases_not_distinct :
    timeout_networkidle 1 = timeout_domcontentloaded 1 ∧
    timeout_networkidle 3 = timeout_domcontentloaded 3 ∧
    timeout_networkidle 1 = 5000 ∧ timeout_domcontentloaded 1 = 5000 := by
  decide

/-- **C4 amended.** Within one `safe_goto` call, the timeout of settle
condition B (`networkidle`) on attempt `i` is `5000 * i`, the same base
and rate as condition A (`domcontentloaded`): the two conditions escalate
identically. -/
theorem timeout_bases_equal (i : Nat) :
    timeout_networkidle i = 5000 * i ∧
    timeout_domcontentloaded i = 5000 * i ∧
    timeout_networkidle i = timeout_domcontentloaded i := by
  simp [timeout_networkidle, timeout_domcontentloaded]

/-- **C7.** Within one `safe_goto` call, the timeouts used for each settle
condition are monotonically non-decreasing in the attempt index. -/
theorem safe_goto_timeouts_monotone (i j : Nat) (h : i ≤ j) :
    timeout_domcontentloaded i ≤ timeout_domcontentloaded j ∧
    timeout_networkidle i ≤ timeout_networkidle j := by
  constructor <;> simp [timeout_domcontentloaded, timeout_networkidle] <;> omega

/-- Witness for C7 at attempts 1 ≤ 2. -/
theorem safe_goto_timeouts_monotone_witness :
    timeout_domcontentloaded 1 ≤ timeout_domcontentloaded 2 ∧
    timeout_networkidle 1 ≤ timeout_networkidle 2 :=
  safe_goto_timeouts_monotone 1 2 (by decide)

/-! ### Expansion-loop theorems (C3, C8, C9) -/

/-- Fuel bound for the expansion loop: clicks grow by at most one and the
loop index by exactly one per iteration. -/
theorem expandLoop_bounds (b : PageBehavior) :
    ∀ fuel i c fs, (expandLoop b fuel i c fs).clicks ≤ c + fuel ∧
      (expandLoop b fuel i c fs).index ≤ i + fuel := by
  intro fuel
  induction fuel with
  | zero => intro i c fs; simp [expandLoop]
  | succ n ih =>
    intro i c fs
    simp only [expandLoop]
    split
    · simp
    · simp
    · split
      · simp
      · simp
      · split
        · simp
        · split
          · obtain ⟨h1, h2⟩ := ih (i + 1) (c + 1) (fs + 1)
            constructor <;> omega
          · split
            · simp
            · split
              · simp
              · simp
              · obtain ⟨h1, h2⟩ := ih (i + 1) (c + 1) fs
                constructor <;> omega

/-- **C3.** Whatever the page does — including a load-more button that
always reappears after each click — `load_all_artworks` performs at most
30 loop iterations and hence at most 30 clicks. -/
theorem load_all_artworks_bounded (b : PageBehavior) :
    (load_all_artworks b).clicks ≤ 30 ∧ (load_all_artworks b).index ≤ 30 := by
  obtain ⟨h1, h2⟩ := expandLoop_bounds b 30 0 0 0
  unfold load_all_artworks
  rcases h : expandLoop b 30 0 0 0 with ⟨i, c, fs, oc⟩
  rw [h] at h1 h2
  cases oc <;> simp_all

/-- **C8.** For every page behaviour, `load_all_artworks` terminates
without propagating any exception to its caller: the enclosing
`except Exception` handler absorbs whatever escapes the loop, and every
stall (`noButton`, `stillNotVisible`, `buttonGone`, `capReached`) is a
normal, non-raised outcome. -/
theorem load_all_artworks_never_raises (b : PageBehavior) (e : String) :
    (load_all_artworks b).outcome ≠ ExpandOutcome.raised e := by
  unfold load_all_artworks
  rcases h : expandLoop b 30 0 0 0 with ⟨i, c, fs, oc⟩
  cases oc <;> simp

/-- **C9.** A failed click on loop index `i` is non-terminal: the loop
takes the fixed 2-second sleep and continues with the next loop pass at
index `i + 1`, consuming one loop slot (one unit of fuel, one click
attempt). -/
theorem expand_click_failure_nonterminal (b : PageBehavior)
    (fuel i clicks fs : Nat) (e : String)
    (hq : b.query i = .ok true) (hv : visibleAt b i = .ok true)
    (hs : b.scrollIntoView i = .ok ()) (hc : b.click i = .error e) :
    expandLoop b (fuel + 1) i clicks fs =
      expandLoop b fuel (i + 1) (clicks + 1) (fs + 1) := by
  simp only [expandLoop, hq, hv, hs, hc]

/-- Witness for C9: on a page whose every click raises, the loop at index
0 steps to index 1 with one click attempt and one failure sleep. -/
theorem expand_click_failure_nonterminal_witness :
    expandLoop clickFailPage 2 0 0 0 = expandLoop clickFailPage 1 1 1 1 :=
  expand_click_failure_nonterminal clickFailPage 1 0 0 0
    "Timeout 10000ms exceeded" rfl rfl rfl rfl

end WikiartScraper
